import Mathlib

/-!
Verification of the px command-line argument parser (repository sjrdc/pax).

The definitions below are a shallow embedding of the latest revision of the
library, `src/px.cpp` (the C++20 module revision, whose API the test suite
`test/testpx.cpp` targets).  Scalar slots are instantiated at the `int`
element type, which is the type every inspected claim speaks about; tokens
are `List String`, iterators are indices into that list, and the C++
exceptions are modelled by threading an `Option PxError` next to the mutated
state (C++ `throw` aborts the remaining work but keeps mutations already
performed on the argument objects).  The content of a slot's bound variable
(`T* bound_variable`) is modelled as an `Option` field storing the current
content of the pointed-to location (`none` = unbound).

Where an older revision differs and a claim cites it, that revision's
function is embedded separately under a `Pxh`/`Pax` prefix
(`include/px.h` resp. `src/pax.h`).
-/

namespace Px

/-! ## Scalar codec: `detail::parse_scalar<int>` (src/px.cpp lines 43-61)

`std::istringstream stream(s); stream >> t;` followed by
`if (!stream.eof() || stream.fail()) throw`.  Integer extraction skips
leading whitespace, reads an optional sign and a non-empty digit run in
base 10, and fails on overflow of `int` (32-bit); the `eof` test then
rejects any trailing characters. -/

def isSpaceChar (c : Char) : Bool :=
  c == ' ' || c == '\t' || c == '\n' || c == '\r'

def digitsToInt (ds : List Char) : Int :=
  ds.foldl (fun a c => a * 10 + ((c.toNat : Int) - ('0'.toNat : Int))) 0

def int32Min : Int := -(2 ^ 31)

def int32Max : Int := 2 ^ 31 - 1

def parse_scalar_chars (s : List Char) : Option Int :=
  let t := s.dropWhile isSpaceChar
  let signAndRest : Int × List Char :=
    match t with
    | '+' :: r => (1, r)
    | '-' :: r => (-1, r)
    | _ => (1, t)
  let ds := signAndRest.2.takeWhile Char.isDigit
  let rest := signAndRest.2.dropWhile Char.isDigit
  if ds.isEmpty then none
  else if !rest.isEmpty then none
  else
    let v := signAndRest.1 * digitsToInt ds
    if v < int32Min || int32Max < v then none else some v

def parse_scalar (s : String) : Option Int :=
  parse_scalar_chars s.data

/-! ## Tag classifier: `detail::is_separator_tag`, `is_short_tag`,
`is_alternate_tag`, `is_tag` (src/px.cpp lines 63-82). -/

def is_separator_tag (s : List Char) : Bool :=
  s.length == 2 && s.getD 0 ' ' == '-' && s.getD 1 ' ' == '-'

def is_short_tag (s : List Char) : Bool :=
  decide (s.length > 1) && s.getD 0 ' ' == '-' && !(s.getD 1 ' ').isDigit

def is_alternate_tag (s : List Char) : Bool :=
  decide (s.length > 2) && s.getD 0 ' ' == '-' && s.getD 1 ' ' == '-' &&
    !(s.getD 2 ' ').isDigit

def is_tag (s : List Char) : Bool :=
  !s.isEmpty && !is_separator_tag s && (is_short_tag s || is_alternate_tag s)

/-! ## Errors

The exceptions thrown by the library: `runtime_error("could not parse
from '...'")` from the scalar codec, `runtime_error("argument '...'
invalid after parsing")` from `detail::throw_on_invalid`, and
`logic_error("tag arguments cannot be given after positional arguments")`
from `prevent_tag_args_after_positional_args`.  `readPastEnd` marks the
places where the C++ code dereferences the end iterator of the token
span (undefined behaviour in the source). -/

inductive PxError where
  | decodeError (token : String)
  | invalidArgument (name : String)
  | logicError
  | readPastEnd
  deriving Repr, DecidableEq

/-! ## Storage: `scalar<int>`, `scalar<bool>`, `multi_scalar<int>`
(src/px.cpp lines 100-140, 264-334). -/

inductive Storage where
  | scalar (value : Option Int)
  | flag (value : Bool)
  | multi (value : List Int)
  deriving Repr, DecidableEq

/-- The value type held by a storage, as returned by `get_value()`. -/
inductive SVal where
  | int (i : Int)
  | bool (b : Bool)
  | list (l : List Int)
  deriving Repr, DecidableEq

/-- `has_value()`: `scalar<T>` asks the optional, `scalar<bool>` always
returns `true` (src/px.cpp line 296), `multi_scalar` asks non-emptiness. -/
def Storage.has_value : Storage → Bool
  | .scalar v => v.isSome
  | .flag _ => true
  | .multi l => !l.isEmpty

/-- `get_value()`.  For `scalar<T>` without a value the C++ code throws;
every use below is guarded by `has_value`, so the default `0` returned in
that case is never observable. -/
def Storage.get_value : Storage → SVal
  | .scalar v => .int (v.getD 0)
  | .flag b => .bool b
  | .multi l => .list l

/-- The run of the `multi_scalar::parse` consumption loop (src/px.cpp
lines 320-334): starting from the suffix of the token list at the value
position, push `parse_scalar` of every token until the first tag-like
token or the end; a decode failure throws, keeping the values pushed so
far.  Returns (decoded values, number of tokens consumed, thrown error). -/
def collect : List String → List Int × Nat × Option PxError
  | [] => ([], 0, none)
  | t :: ts =>
    if is_tag t.data then ([], 0, none)
    else
      match parse_scalar t with
      | none => ([], 0, some (.decodeError t))
      | some v =>
        let r := collect ts
        (v :: r.1, r.2.1 + 1, r.2.2)

/-! ## Tag-argument slots: `tag_argument<T, storage>` (src/px.cpp
lines 198-236, 421-540), unifying flag, single-value and multi-value
arguments over the storage. -/

structure TagArgument where
  name : String
  tag : String
  alternateTag : String := ""
  storage : Storage
  /-- Content of the location `bound_variable` points to (`none` = unbound). -/
  boundVariable : Option SVal := none
  required : Bool := false
  validator : SVal → Bool := fun _ => true

instance : Inhabited TagArgument :=
  ⟨{ name := "", tag := "", storage := .flag false }⟩

/-- `tag_argument::matches` (src/px.cpp lines 421-425). -/
def TagArgument.matches (a : TagArgument) (s : String) : Bool :=
  (!a.tag.isEmpty && a.tag == s) || (!a.alternateTag.isEmpty && a.alternateTag == s)

/-- `tag_argument::is_valid` (src/px.cpp lines 507-515). -/
def TagArgument.is_valid (a : TagArgument) : Bool :=
  if a.storage.has_value then a.validator a.storage.get_value else !a.required

/-- `tag_argument::bind` (src/px.cpp lines 453-458): records the location,
whose current content `loc` is left as it is (no copy of the slot value). -/
def TagArgument.bind (a : TagArgument) (loc : SVal) : TagArgument :=
  { a with boundVariable := some loc }

/-- `tag_argument::set_required` (src/px.cpp lines 467-473): stores the
flag unconditionally; there is no conflict check and no failure path. -/
def TagArgument.set_required (a : TagArgument) (r : Bool) : TagArgument :=
  { a with required := r }

/-- `tag_argument::parse` (src/px.cpp lines 517-540) together with the
storage-level `parse` functions it calls.  The guard is
`std::distance(begin, end) >= 1 && matches(*begin)`; for a non-`bool`
element type the value iterator is advanced (`++i`) before
`storage.parse(i, end)` reads `*i` — when the matching tag is the last
token this dereferences the end iterator (`readPastEnd`).  On success the
bound location, when present, receives `value.get_value()`. -/
def TagArgument.parse (a : TagArgument) (tokens : List String) (b : Nat) :
    TagArgument × Nat × Option PxError :=
  if h : b < tokens.length then
    if a.matches tokens[b] then
      match a.storage with
      | .flag _ =>
        -- T = bool: i = begin; scalar<bool>::parse sets value = true, returns begin
        ({ a with storage := .flag true,
                  boundVariable := a.boundVariable.map fun _ => SVal.bool true },
         b, none)
      | .scalar _ =>
        match tokens[b + 1]? with
        | none => (a, b + 1, some .readPastEnd)
        | some tok =>
          match parse_scalar tok with
          | none => (a, b + 1, some (.decodeError tok))
          | some v =>
            ({ a with storage := .scalar (some v),
                      boundVariable := a.boundVariable.map fun _ => SVal.int v },
             b + 1, none)
      | .multi l =>
        if b + 1 < tokens.length then
          -- multi_scalar::parse runs its loop from i = begin + 1, then --i
          let r := collect (tokens.drop (b + 1))
          match r.2.2 with
          | some err => ({ a with storage := .multi (l ++ r.1) }, b + 1 + r.2.1, some err)
          | none =>
            ({ a with storage := .multi (l ++ r.1),
                      boundVariable := a.boundVariable.map fun _ => SVal.list (l ++ r.1) },
             b + 1 + r.2.1 - 1, none)
        else
          -- std::distance(begin, end) == 0 in multi_scalar::parse: nothing
          -- consumed, i = begin returned, bound location still updated
          ({ a with boundVariable := a.boundVariable.map fun _ => SVal.list l },
           b + 1, none)
    else (a, b, none)
  else (a, b, none)

/-! ## Positional slots: `positional_argument<int>` (src/px.cpp
lines 172-196, 361-419). -/

structure PositionalArgument where
  name : String
  value : Option Int := none
  /-- Content of the bound location (`none` = unbound). -/
  boundVariable : Option Int := none
  validator : Int → Bool := fun _ => true

instance : Inhabited PositionalArgument := ⟨{ name := "" }⟩

/-- `positional_argument::is_valid` (src/px.cpp lines 389-393). -/
def PositionalArgument.is_valid (p : PositionalArgument) : Bool :=
  match p.value with
  | some v => p.validator v
  | none => false

/-- `positional_argument::parse` (src/px.cpp lines 408-419): decodes the
current token unconditionally, propagates to the bound location, and
returns `begin` unchanged. -/
def PositionalArgument.parse (p : PositionalArgument) (tokens : List String) (b : Nat) :
    PositionalArgument × Nat × Option PxError :=
  match tokens[b]? with
  | none => (p, b, some .readPastEnd)
  | some t =>
    match parse_scalar t with
    | none => (p, b, some (.decodeError t))
    | some v =>
      ({ p with value := some v, boundVariable := p.boundVariable.map fun _ => v },
       b, none)

/-! ## The registry: `command_line` (src/px.cpp lines 238-262, 542-646). -/

structure CommandLine where
  name : String
  description : String := ""
  arguments : List TagArgument := []
  positionalArguments : List PositionalArgument := []

/-- The `parse_all` lambda of `command_line::parse` (src/px.cpp
lines 590-595) specialised to the tag-argument collection: fold the scan
position through every slot in declaration order; an exception stops the
fold, leaving the remaining slots untouched. -/
def parse_all (tokens : List String) :
    List TagArgument → Nat → List TagArgument × Nat × Option PxError
  | [], argv => ([], argv, none)
  | a :: rest, argv =>
    let r := a.parse tokens argv
    match r.2.2 with
    | some err => (r.1 :: rest, r.2.1, some err)
    | none =>
      let rr := parse_all tokens rest r.2.1
      (r.1 :: rr.1, rr.2.1, rr.2.2)

/-- The `parse_all` lambda specialised to the positional collection. -/
def parse_all_pos (tokens : List String) :
    List PositionalArgument → Nat → List PositionalArgument × Nat × Option PxError
  | [], argv => ([], argv, none)
  | p :: rest, argv =>
    let r := p.parse tokens argv
    match r.2.2 with
    | some err => (r.1 :: rest, r.2.1, some err)
    | none =>
      let rr := parse_all_pos tokens rest r.2.1
      (r.1 :: rr.1, rr.2.1, rr.2.2)

/-- The tag-scanning loop of `command_line::parse` (src/px.cpp
lines 599-608): `for (; argv != end && !separator_found; ++argv)
{ separator_found = is_separator_tag(*argv); if (!separator_found)
argv = parse_all(arguments, argv, end); }`.  Returns the slots, the
position after the loop, the separator flag and a thrown error.  The
fuel argument only bounds the recursion; `command_line::parse` supplies
`tokens.length + 1`, which the strictly increasing scan position never
exhausts. -/
def scan_tags (tokens : List String) :
    Nat → List TagArgument → Nat → List TagArgument × Nat × Bool × Option PxError
  | 0, args, argv => (args, argv, false, none)
  | fuel + 1, args, argv =>
    if argv = tokens.length then (args, argv, false, none)
    else
      match tokens[argv]? with
      | none => (args, argv, false, some .readPastEnd)
      | some t =>
        if is_separator_tag t.data then (args, argv + 1, true, none)
        else
          let r := parse_all tokens args argv
          match r.2.2 with
          | some err => (r.1, r.2.1, false, some err)
          | none => scan_tags tokens fuel r.1 (r.2.1 + 1)

/-- The positional loop of `command_line::parse` (src/px.cpp
lines 610-617): `for (argv = start; argv != end; ++argv)
argv = parse_all(positional_arguments, argv, end);`. -/
def scan_positionals (tokens : List String) :
    Nat → List PositionalArgument → Nat → List PositionalArgument × Option PxError
  | 0, ps, _ => (ps, none)
  | fuel + 1, ps, argv =>
    if argv = tokens.length then (ps, none)
    else
      let r := parse_all_pos tokens ps argv
      match r.2.2 with
      | some err => (r.1, some err)
      | none => scan_positionals tokens fuel r.1 (r.2.1 + 1)

/-- `detail::find_invalid`/`throw_on_invalid` over the tag-argument
collection (src/px.cpp lines 84-95): the name of the first invalid slot. -/
def find_invalid_tag : List TagArgument → Option String
  | [] => none
  | a :: rest => if a.is_valid then find_invalid_tag rest else some a.name

/-- `detail::find_invalid`/`throw_on_invalid` over the positional
collection. -/
def find_invalid_pos : List PositionalArgument → Option String
  | [] => none
  | p :: rest => if p.is_valid then find_invalid_pos rest else some p.name

/-- The two `throw_on_invalid` calls closing `command_line::parse`
(src/px.cpp lines 620-621): tag slots first, then positional slots. -/
def check_invalid (cl : CommandLine) : Option PxError :=
  match find_invalid_tag cl.arguments with
  | some nm => some (.invalidArgument nm)
  | none =>
    match find_invalid_pos cl.positionalArguments with
    | some nm => some (.invalidArgument nm)
    | none => none

/-- `command_line::parse` (src/px.cpp lines 585-622).  When the token list
is non-empty: skip the program name, run the tag-scanning loop, then —
when positional slots exist — run the positional loop, starting just past
the separator when one was found and otherwise restarting at index 1;
finally (also when the token list was empty) run the two validity checks.
A thrown error aborts the remaining phases but keeps the mutations already
performed. -/
def CommandLine.parse (cl : CommandLine) (args : List String) :
    CommandLine × Option PxError :=
  if 0 < args.length then
    let r := scan_tags args (args.length + 1) cl.arguments 1
    let cl1 : CommandLine := { cl with arguments := r.1 }
    match r.2.2.2 with
    | some err => (cl1, some err)
    | none =>
      let rp :=
        if cl1.positionalArguments.isEmpty then (cl1.positionalArguments, none)
        else
          scan_positionals args (args.length + 1) cl1.positionalArguments
            (if r.2.2.1 then r.2.1 else 1)
      let cl2 : CommandLine := { cl1 with positionalArguments := rp.1 }
      match rp.2 with
      | some err => (cl2, some err)
      | none => (cl2, check_invalid cl2)
  else (cl, check_invalid cl)

/-- `command_line::prevent_tag_args_after_positional_args` (src/px.cpp
lines 639-645). -/
def CommandLine.prevent_tag_args_after_positional_args (cl : CommandLine) :
    Option PxError :=
  if cl.positionalArguments.isEmpty then none else some .logicError

/-- `command_line::add_flag_argument` (src/px.cpp lines 556-563): the
guard throws before anything is pushed, leaving the collections unchanged. -/
def CommandLine.add_flag_argument (cl : CommandLine) (name tag : String) :
    CommandLine × Option PxError :=
  match cl.prevent_tag_args_after_positional_args with
  | some err => (cl, some err)
  | none =>
    let arg : TagArgument := { name := name, tag := tag, storage := .flag false }
    ({ cl with arguments := cl.arguments ++ [arg] }, none)

/-- `command_line::add_value_argument<int>` (src/px.cpp lines 565-573). -/
def CommandLine.add_value_argument (cl : CommandLine) (name tag : String) :
    CommandLine × Option PxError :=
  match cl.prevent_tag_args_after_positional_args with
  | some err => (cl, some err)
  | none =>
    let arg : TagArgument := { name := name, tag := tag, storage := .scalar none }
    ({ cl with arguments := cl.arguments ++ [arg] }, none)

/-- `command_line::add_multi_value_argument<int>` (src/px.cpp
lines 575-583). -/
def CommandLine.add_multi_value_argument (cl : CommandLine) (name tag : String) :
    CommandLine × Option PxError :=
  match cl.prevent_tag_args_after_positional_args with
  | some err => (cl, some err)
  | none =>
    let arg : TagArgument := { name := name, tag := tag, storage := .multi [] }
    ({ cl with arguments := cl.arguments ++ [arg] }, none)

/-- `command_line::add_positional_argument<int>` (src/px.cpp
lines 547-554): no ordering guard. -/
def CommandLine.add_positional_argument (cl : CommandLine) (name : String) :
    CommandLine :=
  { cl with positionalArguments := cl.positionalArguments ++ [{ name := name }] }

end Px

/-! ## Older revisions cited by the claims. -/

namespace Pxh

/-- `flag_argument` of the header revision include/px.h (lines 251-268). -/
structure FlagArgument where
  value : Bool := false
  /-- Content of the bound location (`none` = unbound). -/
  boundVariable : Option Bool := none

/-- `flag_argument::bind` of include/px.h (lines 579-584):
`bound_variable = b; *bound_variable = value;` — unlike the module
revision, it immediately copies the current value into the location,
overwriting the location's previous content. -/
def FlagArgument.bind (a : FlagArgument) (loc : Bool) : FlagArgument :=
  let _ := loc
  { a with boundVariable := some a.value }

end Pxh

namespace Pax

/-- `value_argument<int>` of the early prototype src/pax.h
(lines 89-132): it owns a default value but has no `required` flag and no
validity notion. -/
structure ValueArgument where
  name : String
  value : Int := 0
  defaultValue : Option Int := none
  boundVariable : Option Int := none

/-- `value_argument::set_default_value` (src/pax.h lines 128-132): stores
the default unconditionally; there is no conflict check and no failure
path. -/
def ValueArgument.set_default_value (a : ValueArgument) (d : Int) : ValueArgument :=
  { a with defaultValue := some d }

end Pax


namespace Px

/-! ## Definitions supporting the claims: concrete registries, the claim's
tag characterization, and the simulation relations used for the
accumulation property of multi-value slots. -/

/-- The registry of claim C1 (also the `can_parse_positional_arg_after_tag_args`
test): a flag `-f`, an int value argument `-i`, one int positional. -/
def C1cli : CommandLine :=
  { name := "cli",
    arguments := [
      { name := "flag", tag := "-f", storage := .flag false },
      { name := "integer", tag := "-i", storage := .scalar none } ],
    positionalArguments := [ { name := "posint" } ] }

def C1tokens : List String := ["prog", "-i", "4", "-f", "--", "3"]

/-- The registry of claim C2: a multi-value int argument `--ints` and a
flag `-f`. -/
def C2cli : CommandLine :=
  { name := "cli",
    arguments := [
      { name := "ints", tag := "--ints", storage := .multi [] },
      { name := "flag", tag := "-f", storage := .flag false } ] }

def C2tokens : List String := ["prog", "--ints", "1", "2", "3", "4", "-f"]

/-- The registry of claim C4's counterexample: a required int value
argument `-i` (invalid when no value is parsed) and one int positional. -/
def C4cli : CommandLine :=
  { name := "cli",
    arguments := [
      { name := "integer", tag := "-i", storage := .scalar none, required := true } ],
    positionalArguments := [ { name := "posint" } ] }

/-- A plain single-value int slot tagged `-i` (claim C5). -/
def C5slot : TagArgument := { name := "integer", tag := "-i", storage := .scalar none }

/-- A registry that already owns a positional argument (claim C7). -/
def C7cli : CommandLine :=
  { name := "cli", positionalArguments := [ { name := "posint" } ] }

/-- A flag slot whose value is already `true` (claim C8): binding a
location to it should, per the claim, copy `true` into the location. -/
def C8flag : TagArgument := { name := "flag", tag := "-f", storage := .flag true }

/-- A flag slot with value `false` whose bound location also holds
`false` (witness input for the amended claim C8). -/
def C8boundFlag : TagArgument :=
  { name := "flag", tag := "-f", storage := .flag false,
    boundVariable := some (.bool false) }

/-- The registry of claim C10: a flag `-f` and one int positional. -/
def C10cli : CommandLine :=
  { name := "cli",
    arguments := [ { name := "flag", tag := "-f", storage := .flag false } ],
    positionalArguments := [ { name := "posint" } ] }

/-- The claim's characterization of tag-likeness, written from its words:
a token beginning with a single dash followed by a non-digit character, or
a double dash followed by a non-digit character with length greater than
two; the literal two-character separator token excluded. -/
def is_tag_claim (s : List Char) : Bool :=
  decide (s ≠ ['-', '-']) &&
    ((decide (2 ≤ s.length) && s.getD 0 ' ' == '-' && !(s.getD 1 ' ').isDigit) ||
     (decide (2 < s.length) && s.getD 0 ' ' == '-' && s.getD 1 ' ' == '-' &&
       !(s.getD 2 ' ').isDigit))

/-- The three storage shapes a tag-argument slot can have. -/
inductive SlotKind where
  | scalar
  | flag
  | multi
  deriving Repr, DecidableEq

def Storage.kind : Storage → SlotKind
  | .scalar _ => .scalar
  | .flag _ => .flag
  | .multi _ => .multi

/-- The multi-value list of a storage (empty for the other kinds). -/
def Storage.multiOf : Storage → List Int
  | .multi l => l
  | _ => []

/-- Two slots that agree on everything the scan control flow reads: tags
and storage kind.  Stored values never steer the scan. -/
def SlotSim (a a2 : TagArgument) : Prop :=
  a.tag = a2.tag ∧ a.alternateTag = a2.alternateTag ∧ a.storage.kind = a2.storage.kind

/-- Relates the argument lists of two parse runs: pointwise, the old slots
of both runs are similar, the new slots are similar, and the two runs
appended the same multi-value delta. -/
inductive ScanSim :
    List TagArgument → List TagArgument → List TagArgument → List TagArgument → Prop
  | nil : ScanSim [] [] [] []
  | cons {a a2 b b2 : TagArgument} {as as2 bs bs2 : List TagArgument} :
      SlotSim a a2 → SlotSim b b2 →
      (∃ d, b.storage.multiOf = a.storage.multiOf ++ d ∧
            b2.storage.multiOf = a2.storage.multiOf ++ d) →
      ScanSim as as2 bs bs2 →
      ScanSim (a :: as) (a2 :: as2) (b :: bs) (b2 :: bs2)

/-! ## Helper lemmas. -/

theorem SlotSim.rfl (a : TagArgument) : SlotSim a a := ⟨Eq.refl _, Eq.refl _, Eq.refl _⟩

theorem SlotSim.symm {a b : TagArgument} (h : SlotSim a b) : SlotSim b a :=
  ⟨h.1.symm, h.2.1.symm, h.2.2.symm⟩

theorem SlotSim.trans {a b c : TagArgument} (h : SlotSim a b) (h2 : SlotSim b c) :
    SlotSim a c :=
  ⟨h.1.trans h2.1, h.2.1.trans h2.2.1, h.2.2.trans h2.2.2⟩

/-- `tag_argument::parse` never changes a slot's tags or storage kind. -/
theorem TagArgument.parse_pres (a : TagArgument) (tokens : List String) (b : Nat) :
    SlotSim a (a.parse tokens b).1 := by
  obtain ⟨nm, tg, alt, st, bv, rq, vd⟩ := a
  unfold TagArgument.parse
  by_cases h : b < tokens.length
  · rw [dif_pos h]
    by_cases hm : TagArgument.matches ⟨nm, tg, alt, st, bv, rq, vd⟩ tokens[b] = true
    · rw [if_pos hm]
      cases st with
      | flag v => simp [SlotSim, Storage.kind]
      | scalar v =>
        dsimp only
        cases tokens[b + 1]? with
        | none => simp [SlotSim]
        | some tok =>
          dsimp only
          cases parse_scalar tok with
          | none => simp [SlotSim]
          | some w => simp [SlotSim, Storage.kind]
      | multi l =>
        dsimp only
        by_cases hlt : b + 1 < tokens.length
        · rw [if_pos hlt]
          cases (collect (tokens.drop (b + 1))).2.2 with
          | none => simp [SlotSim, Storage.kind]
          | some e => simp [SlotSim, Storage.kind]
        · rw [if_neg hlt]
          simp [SlotSim, Storage.kind]
    · rw [if_neg hm]
      exact SlotSim.rfl _
  · rw [dif_neg h]
    exact SlotSim.rfl _

/-- Two similar slots step identically: same returned scan position, same
thrown error, and the same delta appended to their multi-value lists. -/
theorem TagArgument.parse_sim {a a2 : TagArgument} (h : SlotSim a a2)
    (tokens : List String) (b : Nat) :
    (a.parse tokens b).2 = (a2.parse tokens b).2 ∧
    ∃ d, (a.parse tokens b).1.storage.multiOf = a.storage.multiOf ++ d ∧
         (a2.parse tokens b).1.storage.multiOf = a2.storage.multiOf ++ d := by
  obtain ⟨nm, tg, alt, st, bv, rq, vd⟩ := a
  obtain ⟨nm2, tg2, alt2, st2, bv2, rq2, vd2⟩ := a2
  obtain ⟨h1, h2, h3⟩ := h
  dsimp only at h1 h2 h3
  subst h1
  subst h2
  unfold TagArgument.parse
  by_cases hb : b < tokens.length
  · rw [dif_pos hb, dif_pos hb]
    have hmeq : TagArgument.matches ⟨nm, tg, alt, st, bv, rq, vd⟩ tokens[b] =
        TagArgument.matches ⟨nm2, tg, alt, st2, bv2, rq2, vd2⟩ tokens[b] := by
      simp [TagArgument.matches]
    by_cases hm : TagArgument.matches ⟨nm, tg, alt, st, bv, rq, vd⟩ tokens[b] = true
    · rw [if_pos hm, if_pos (hmeq ▸ hm)]
      cases st with
      | flag v =>
        cases st2 with
        | flag v2 => exact ⟨Eq.refl _, [], by simp [Storage.multiOf]⟩
        | scalar v2 => simp [Storage.kind] at h3
        | multi l2 => simp [Storage.kind] at h3
      | scalar v =>
        cases st2 with
        | flag v2 => simp [Storage.kind] at h3
        | multi l2 => simp [Storage.kind] at h3
        | scalar v2 =>
          dsimp only
          cases tokens[b + 1]? with
          | none => exact ⟨Eq.refl _, [], by simp [Storage.multiOf]⟩
          | some tok =>
            dsimp only
            cases parse_scalar tok with
            | none => exact ⟨Eq.refl _, [], by simp [Storage.multiOf]⟩
            | some w => exact ⟨Eq.refl _, [], by simp [Storage.multiOf]⟩
      | multi l =>
        cases st2 with
        | flag v2 => simp [Storage.kind] at h3
        | scalar v2 => simp [Storage.kind] at h3
        | multi l2 =>
          dsimp only
          by_cases hlt : b + 1 < tokens.length
          · rw [if_pos hlt, if_pos hlt]
            cases (collect (tokens.drop (b + 1))).2.2 with
            | none =>
              exact ⟨Eq.refl _, (collect (tokens.drop (b + 1))).1,
                by simp [Storage.multiOf]⟩
            | some e =>
              exact ⟨Eq.refl _, (collect (tokens.drop (b + 1))).1,
                by simp [Storage.multiOf]⟩
          · rw [if_neg hlt, if_neg hlt]
            exact ⟨Eq.refl _, [], by simp [Storage.multiOf]⟩
    · rw [if_neg hm, if_neg (hmeq ▸ hm)]
      exact ⟨Eq.refl _, [], by simp⟩
  · rw [dif_neg hb, dif_neg hb]
    exact ⟨Eq.refl _, [], by simp⟩

theorem ScanSim.of_forall₂ {xs ys : List TagArgument}
    (h : List.Forall₂ SlotSim xs ys) : ScanSim xs ys xs ys := by
  induction h with
  | nil => exact .nil
  | cons hab htail ih =>
    exact .cons hab hab ⟨[], by simp, by simp⟩ ih

theorem ScanSim.forall₂_out {as as2 bs bs2 : List TagArgument}
    (h : ScanSim as as2 bs bs2) : List.Forall₂ SlotSim bs bs2 := by
  induction h with
  | nil => exact .nil
  | cons hab hb hd htail ih => exact .cons hb ih

theorem ScanSim.comp {as as2 ms ms2 bs bs2 : List TagArgument}
    (h : ScanSim as as2 ms ms2) (h2 : ScanSim ms ms2 bs bs2) :
    ScanSim as as2 bs bs2 := by
  induction h generalizing bs bs2 with
  | nil =>
    cases h2
    exact .nil
  | cons hab hm hd htail ih =>
    cases h2 with
    | cons hm2 hb hd2 htail2 =>
      refine .cons hab hb ?_ (ih htail2)
      obtain ⟨d1, hd1a, hd1b⟩ := hd
      obtain ⟨d2, hd2a, hd2b⟩ := hd2
      exact ⟨d1 ++ d2, by rw [hd2a, hd1a, List.append_assoc],
        by rw [hd2b, hd1b, List.append_assoc]⟩

/-- Two parse-all sweeps over similar slot lists step identically. -/
theorem parse_all_sim (tokens : List String) {xs ys : List TagArgument}
    (hsim : List.Forall₂ SlotSim xs ys) :
    ∀ argv : Nat,
      (parse_all tokens xs argv).2 = (parse_all tokens ys argv).2 ∧
      ScanSim xs ys (parse_all tokens xs argv).1 (parse_all tokens ys argv).1 := by
  induction hsim with
  | nil => exact fun argv => ⟨Eq.refl _, .nil⟩
  | @cons a b l1 l2 hab htail ih =>
    intro argv
    have hres := SlotSim.trans (SlotSim.symm (TagArgument.parse_pres a tokens argv))
      (SlotSim.trans hab (TagArgument.parse_pres b tokens argv))
    obtain ⟨heq, hdelta⟩ := TagArgument.parse_sim hab tokens argv
    simp only [parse_all]
    rw [← heq]
    cases herr : (TagArgument.parse a tokens argv).2.2 with
    | some err =>
      exact ⟨Eq.refl _, .cons hab hres hdelta (ScanSim.of_forall₂ htail)⟩
    | none =>
      obtain ⟨ihEq, ihScan⟩ := ih (TagArgument.parse a tokens argv).2.1
      dsimp only
      rw [ihEq]
      exact ⟨Eq.refl _, .cons hab hres hdelta ihScan⟩

theorem parse_all_pres (tokens : List String) :
    ∀ (xs : List TagArgument) (argv : Nat),
      List.Forall₂ SlotSim xs (parse_all tokens xs argv).1
  | [], argv => .nil
  | a :: rest, argv => by
    simp only [parse_all]
    cases herr : (TagArgument.parse a tokens argv).2.2 with
    | some err =>
      exact .cons (TagArgument.parse_pres a tokens argv)
        (List.forall₂_same.mpr fun x _ => SlotSim.rfl x)
    | none =>
      exact .cons (TagArgument.parse_pres a tokens argv)
        (parse_all_pres tokens rest (TagArgument.parse a tokens argv).2.1)

theorem forall₂_slotSim_trans {xs ys zs : List TagArgument}
    (h : List.Forall₂ SlotSim xs ys) (h2 : List.Forall₂ SlotSim ys zs) :
    List.Forall₂ SlotSim xs zs := by
  induction h generalizing zs with
  | nil =>
    cases h2
    exact .nil
  | cons hab htail ih =>
    cases h2 with
    | cons hbc htail2 => exact .cons (hab.trans hbc) (ih htail2)

/-- The tag-scanning loop never changes tags or storage kinds. -/
theorem scan_tags_pres (tokens : List String) :
    ∀ (fuel : Nat) (xs : List TagArgument) (argv : Nat),
      List.Forall₂ SlotSim xs (scan_tags tokens fuel xs argv).1 := by
  intro fuel
  induction fuel with
  | zero => exact fun xs argv => List.forall₂_same.mpr fun x _ => SlotSim.rfl x
  | succ fuel ih =>
    intro xs argv
    simp only [scan_tags]
    by_cases hn : argv = tokens.length
    · simp only [if_pos hn]
      exact List.forall₂_same.mpr fun x _ => SlotSim.rfl x
    · simp only [if_neg hn]
      cases tokens[argv]? with
      | none => exact List.forall₂_same.mpr fun x _ => SlotSim.rfl x
      | some t =>
        dsimp only
        by_cases hsep : is_separator_tag t.data = true
        · simp only [if_pos hsep]
          exact List.forall₂_same.mpr fun x _ => SlotSim.rfl x
        · simp only [if_neg hsep]
          cases herr : (parse_all tokens xs argv).2.2 with
          | some err => exact parse_all_pres tokens xs argv
          | none =>
            exact forall₂_slotSim_trans (parse_all_pres tokens xs argv)
              (ih (parse_all tokens xs argv).1 ((parse_all tokens xs argv).2.1 + 1))

/-- Two tag-scanning loops over similar slot lists step identically and
append the same multi-value deltas. -/
theorem scan_tags_sim (tokens : List String) :
    ∀ (fuel : Nat) {xs ys : List TagArgument} (argv : Nat),
      List.Forall₂ SlotSim xs ys →
      (scan_tags tokens fuel xs argv).2 = (scan_tags tokens fuel ys argv).2 ∧
      ScanSim xs ys (scan_tags tokens fuel xs argv).1 (scan_tags tokens fuel ys argv).1 := by
  intro fuel
  induction fuel with
  | zero => exact fun argv h => ⟨Eq.refl _, ScanSim.of_forall₂ h⟩
  | succ fuel ih =>
    intro xs ys argv h
    simp only [scan_tags]
    by_cases hn : argv = tokens.length
    · simp only [if_pos hn]
      exact ⟨by simp, ScanSim.of_forall₂ h⟩
    · simp only [if_neg hn]
      cases tokens[argv]? with
      | none => exact ⟨by simp, ScanSim.of_forall₂ h⟩
      | some t =>
        dsimp only
        by_cases hsep : is_separator_tag t.data = true
        · simp only [if_pos hsep]
          exact ⟨by simp, ScanSim.of_forall₂ h⟩
        · simp only [if_neg hsep]
          obtain ⟨haEq, haScan⟩ := parse_all_sim tokens h argv
          rw [← haEq]
          cases herr : (parse_all tokens xs argv).2.2 with
          | some err => exact ⟨Eq.refl _, haScan⟩
          | none =>
            obtain ⟨ihEq, ihScan⟩ :=
              ih ((parse_all tokens xs argv).2.1 + 1) (ScanSim.forall₂_out haScan)
            exact ⟨ihEq, ScanSim.comp haScan ihScan⟩

theorem ScanSim.delta_getD {as as2 bs bs2 : List TagArgument}
    (h : ScanSim as as2 bs bs2) :
    ∀ i : Nat, i < as.length →
      ∃ d, (bs.getD i default).storage.multiOf =
              (as.getD i default).storage.multiOf ++ d ∧
           (bs2.getD i default).storage.multiOf =
              (as2.getD i default).storage.multiOf ++ d := by
  induction h with
  | nil =>
    intro i hi
    simp at hi
  | cons hab hb hd htail ih =>
    intro i hi
    cases i with
    | zero => simpa [List.getD] using hd
    | succ n =>
      have hn : n < _ := Nat.lt_of_succ_lt_succ (by simpa using hi)
      simpa [List.getD] using ih n hn

/-- Parsing an empty token list changes nothing. -/
theorem parse_nil_stable (cl : CommandLine) : (cl.parse []).1 = cl := rfl

/-- The argument list resulting from `command_line::parse` is exactly the
output of the tag-scanning loop, whatever the later phases do. -/
theorem parse_arguments_eq (cl : CommandLine) (ts : List String)
    (h : 0 < ts.length) :
    (cl.parse ts).1.arguments = (scan_tags ts (ts.length + 1) cl.arguments 1).1 := by
  unfold CommandLine.parse
  rw [if_pos h]
  dsimp only
  cases (scan_tags ts (ts.length + 1) cl.arguments 1).2.2.2 with
  | some err => rfl
  | none =>
    dsimp only
    cases (if cl.positionalArguments.isEmpty then (cl.positionalArguments, none)
        else scan_positionals ts (ts.length + 1) cl.positionalArguments
          (if (scan_tags ts (ts.length + 1) cl.arguments 1).2.2.1 then
            (scan_tags ts (ts.length + 1) cl.arguments 1).2.1 else 1)).2 with
    | some err => rfl
    | none => rfl

end Px

namespace Px

/-! ## Claim theorems. -/

/-- C1: parsing `["prog", "-i", "4", "-f", "--", "3"]` against a registry
with flag `-f`, int value argument `-i` and one int positional completes
without error; afterwards the value argument holds `4`, the flag is
`true`, and the positional argument holds `3`. -/
theorem C1_parse_mixed_tokens :
    (C1cli.parse C1tokens).2 = none ∧
    (C1cli.parse C1tokens).1.arguments.map (·.storage) =
      [Storage.flag true, Storage.scalar (some 4)] ∧
    (C1cli.parse C1tokens).1.positionalArguments.map (·.value) = [some 3] := by
  decide

/-- C2: the consumption loop of a matched multi-value slot decodes exactly
the tokens up to the first tag-like token or the end of input (first
conjunct, over every token list whose run decodes), and concretely,
parsing `["prog", "--ints", "1", "2", "3", "4", "-f"]` leaves the
multi-value slot holding `[1, 2, 3, 4]` and the flag `-f` set. -/
theorem C2_multi_value_consumes_until_tag :
    (∀ ts : List String,
      (∀ t ∈ ts.takeWhile (fun t => !is_tag t.data), (parse_scalar t).isSome) →
      collect ts =
        ((ts.takeWhile (fun t => !is_tag t.data)).map fun t => (parse_scalar t).getD 0,
         (ts.takeWhile (fun t => !is_tag t.data)).length, none)) ∧
    (C2cli.parse C2tokens).2 = none ∧
    (C2cli.parse C2tokens).1.arguments.map (·.storage) =
      [Storage.multi [1, 2, 3, 4], Storage.flag true] := by
  refine ⟨?_, by decide, by decide⟩
  intro ts h
  induction ts with
  | nil => rfl
  | cons t ts ih =>
    by_cases htag : is_tag t.data
    · simp [collect, htag, List.takeWhile_cons]
    · have hmem : t ∈ (t :: ts).takeWhile (fun t => !is_tag t.data) := by
        simp [List.takeWhile_cons, htag]
      obtain ⟨v, hv⟩ := Option.isSome_iff_exists.mp (h t hmem)
      have hrest : ∀ u ∈ ts.takeWhile (fun t => !is_tag t.data),
          (parse_scalar u).isSome := by
        intro u hu
        exact h u (by simp [List.takeWhile_cons, htag, hu])
      have hcol := ih hrest
      simp [collect, htag, hv, List.takeWhile_cons, hcol]

theorem C2_multi_value_consumes_until_tag_witness :
    (∀ t ∈ (["1", "2", "-f"] : List String).takeWhile (fun t => !is_tag t.data),
      (parse_scalar t).isSome) ∧
    collect ["1", "2", "-f"] = ([1, 2], 2, none) := by
  refine ⟨by decide, ?_⟩
  have h := C2_multi_value_consumes_until_tag.1 ["1", "2", "-f"] (by decide)
  rw [h]
  decide

/-- C3: `detail::is_tag` (src/px.cpp lines 78-82) agrees with the claimed
characterization on every token, and in particular classifies the literal
separator `--` as not tag-like. -/
theorem C3_is_tag_characterization :
    (∀ s : List Char, is_tag s = is_tag_claim s) ∧ is_tag ['-', '-'] = false := by
  constructor
  · intro s
    match s with
    | [] => rfl
    | [a] =>
      rw [Bool.eq_iff_iff]
      simp [is_tag, is_tag_claim, is_separator_tag, is_short_tag, is_alternate_tag]
    | [a, b] =>
      rw [Bool.eq_iff_iff]
      simp [is_tag, is_tag_claim, is_separator_tag, is_short_tag, is_alternate_tag]
    | a :: b :: c :: rest =>
      rw [Bool.eq_iff_iff]
      simp [is_tag, is_tag_claim, is_separator_tag, is_short_tag, is_alternate_tag]
  · rfl

/-- C4 counterexample: on `["prog", "7"]` with a required (hence invalid)
value slot named "integer" and one positional slot, parse does fail with
the error naming "integer", but positional scanning has already run: the
positional slot's value changed from `none` to `some 7` during the
failing parse call, contradicting the claim that it is left unchanged. -/
theorem C4_counterexample_positional_modified :
    (C4cli.parse ["prog", "7"]).2 = some (PxError.invalidArgument "integer") ∧
    C4cli.positionalArguments.map (·.value) = [none] ∧
    (C4cli.parse ["prog", "7"]).1.positionalArguments.map (·.value) = [some 7] := by
  decide

/-- C4 (amended): when the token list is non-empty, the tag-scanning phase
throws nothing, some tag-argument slot is invalid afterwards, and the
positional phase throws nothing either, `command_line::parse` fails with
the error naming the first invalid tag slot — but positional scanning has
already run: the resulting positional slots are exactly the output of the
positional scan, not the untouched originals. -/
theorem C4_amended_first_invalid_named_after_positional_scan
    (cl : CommandLine) (args : List String) (nm : String)
    (hlen : 0 < args.length)
    (hscan : (scan_tags args (args.length + 1) cl.arguments 1).2.2.2 = none)
    (hinv : find_invalid_tag (scan_tags args (args.length + 1) cl.arguments 1).1 =
      some nm)
    (hpos : (scan_positionals args (args.length + 1) cl.positionalArguments
        (if (scan_tags args (args.length + 1) cl.arguments 1).2.2.1 then
          (scan_tags args (args.length + 1) cl.arguments 1).2.1 else 1)).2 = none) :
    (cl.parse args).2 = some (PxError.invalidArgument nm) ∧
    (cl.parse args).1.positionalArguments =
      (if cl.positionalArguments.isEmpty then cl.positionalArguments
       else (scan_positionals args (args.length + 1) cl.positionalArguments
        (if (scan_tags args (args.length + 1) cl.arguments 1).2.2.1 then
          (scan_tags args (args.length + 1) cl.arguments 1).2.1 else 1)).1) := by
  unfold CommandLine.parse
  rw [if_pos hlen]
  by_cases hemp : cl.positionalArguments.isEmpty
  · simp [hscan, hemp, check_invalid, hinv]
  · simp [hscan, hemp, hpos, check_invalid, hinv]

theorem C4_amended_first_invalid_named_after_positional_scan_witness :
    0 < (["prog", "7"] : List String).length ∧
    (scan_tags ["prog", "7"] 3 C4cli.arguments 1).2.2.2 = none ∧
    find_invalid_tag (scan_tags ["prog", "7"] 3 C4cli.arguments 1).1 =
      some "integer" ∧
    (C4cli.parse ["prog", "7"]).2 = some (PxError.invalidArgument "integer") := by
  refine ⟨by decide, by decide, by decide, ?_⟩
  exact (C4_amended_first_invalid_named_after_positional_scan C4cli ["prog", "7"]
    "integer" (by decide) (by decide) (by decide) (by decide)).1

/-- C5 (code bug): `tag_argument::parse` guards the consuming branch with
`std::distance(begin, end) >= 1` — the flag guard — also for single-value
slots, so when the matching tag `-i` is the last token it advances the
value iterator to the end and dereferences it (`scalar<int>::parse` reads
`*begin` with `begin == end`), instead of returning the scan position
unchanged as the claim (and `value_argument::parse` of the older
include/px.h revision, whose guard is `> 1`) states. -/
theorem C5_tag_as_last_token_reads_past_end :
    (C5slot.parse ["prog", "-i"] 1).2 = (2, some PxError.readPastEnd) ∧
    (C5slot.parse ["prog", "-i"] 1).1.storage = Storage.scalar none := by
  decide

/-- C7: declaring any tag argument on a registry that already owns a
positional argument fails with the logic error thrown by
`prevent_tag_args_after_positional_args`, before anything is pushed, so
the argument collections are unchanged. -/
theorem C7_tag_argument_after_positional_rejected (cl : CommandLine)
    (name tag : String) (h : cl.positionalArguments.isEmpty = false) :
    cl.add_flag_argument name tag = (cl, some PxError.logicError) ∧
    cl.add_value_argument name tag = (cl, some PxError.logicError) ∧
    cl.add_multi_value_argument name tag = (cl, some PxError.logicError) := by
  simp [CommandLine.add_flag_argument, CommandLine.add_value_argument,
    CommandLine.add_multi_value_argument,
    CommandLine.prevent_tag_args_after_positional_args, h]

theorem C7_tag_argument_after_positional_rejected_witness :
    C7cli.positionalArguments.isEmpty = false ∧
    C7cli.add_flag_argument "flag" "-f" = (C7cli, some PxError.logicError) :=
  ⟨rfl, (C7_tag_argument_after_positional_rejected C7cli "flag" "-f" rfl).1⟩

/-- C8 counterexample: `tag_argument::bind` of src/px.cpp only records the
location; binding a location holding `false` to a flag slot whose value
is already `true` leaves the location `false`, contradicting the claimed
immediate copy of the current value. -/
theorem C8_counterexample_bind_does_not_copy :
    C8flag.storage.get_value = SVal.bool true ∧
    (C8flag.bind (SVal.bool false)).boundVariable = some (SVal.bool false) ∧
    SVal.bool false ≠ SVal.bool true := by
  decide

/-- C8 (amended): `tag_argument::bind` of src/px.cpp records the bound
location and leaves its content unchanged (first conjunct) — only
`flag_argument::bind` of the older include/px.h revision immediately
copies the slot's current value into the location (second conjunct); a
later parse step that matches the slot's tag and throws nothing writes
the slot's new value to the bound location (third conjunct). -/
theorem C8_amended_bind_records_and_parse_propagates :
    (∀ (a : TagArgument) (loc : SVal), (a.bind loc).boundVariable = some loc) ∧
    (∀ (a : Pxh.FlagArgument) (loc : Bool), (a.bind loc).boundVariable = some a.value) ∧
    (∀ (a : TagArgument) (tokens : List String) (b : Nat) (w : SVal)
      (h : b < tokens.length),
      a.boundVariable = some w →
      a.matches tokens[b] = true →
      (a.parse tokens b).2.2 = none →
      (a.parse tokens b).1.boundVariable =
        some ((a.parse tokens b).1.storage.get_value)) := by
  refine ⟨fun a loc => rfl, fun a loc => rfl, ?_⟩
  intro a tokens b w h hw hm herr
  obtain ⟨nm, tg, alt, st, bv, rq, vd⟩ := a
  unfold TagArgument.parse at herr ⊢
  rw [dif_pos h, if_pos hm] at herr ⊢
  dsimp only at hw
  subst hw
  cases st with
  | flag v => simp [Storage.get_value]
  | scalar v =>
    dsimp only at herr ⊢
    cases hget : tokens[b + 1]? with
    | none => simp [hget] at herr
    | some tok =>
      cases hps : parse_scalar tok with
      | none => simp [hget, hps] at herr
      | some w2 => simp [hget, hps, Storage.get_value]
  | multi l =>
    dsimp only at herr ⊢
    by_cases hlt : b + 1 < tokens.length
    · rw [if_pos hlt]
      cases hc : (collect (tokens.drop (b + 1))).2.2 with
      | none => simp [hc, Storage.get_value]
      | some e =>
        rw [if_pos hlt] at herr
        simp [hc] at herr
    · rw [if_neg hlt] at herr ⊢
      simp [Storage.get_value]

theorem C8_amended_bind_records_and_parse_propagates_witness :
    C8boundFlag.boundVariable = some (SVal.bool false) ∧
    C8boundFlag.matches (["-f"] : List String)[0] = true ∧
    (C8boundFlag.parse ["-f"] 0).2.2 = none ∧
    (C8boundFlag.parse ["-f"] 0).1.boundVariable =
      some ((C8boundFlag.parse ["-f"] 0).1.storage.get_value) := by
  refine ⟨by decide, by decide, by decide, ?_⟩
  exact C8_amended_bind_records_and_parse_propagates.2.2 C8boundFlag ["-f"] 0
    (SVal.bool false) (by decide) (by decide) (by decide) (by decide)

/-- C9: a multi-value slot's list is never cleared by `parse`: for every
registry, token sequence and slot position, one parse call extends the
slot's multi-value list by some delta `d`, and a second parse call with
the same token sequence appends exactly the same delta `d` again — the
list equals the first result with the same values appended, growing
monotonically across parse calls on one registry. -/
theorem C9_multi_value_lists_accumulate (cl : CommandLine) (ts : List String)
    (i : Nat) (hi : i < cl.arguments.length) :
    ∃ d,
      (((cl.parse ts).1.arguments.getD i default).storage.multiOf =
        ((cl.arguments.getD i default).storage.multiOf) ++ d) ∧
      ((((cl.parse ts).1.parse ts).1.arguments.getD i default).storage.multiOf =
        (((cl.parse ts).1.arguments.getD i default).storage.multiOf) ++ d) := by
  rcases Nat.eq_zero_or_pos ts.length with hz | hpos
  · have hnil : ts = [] := List.length_eq_zero.mp hz
    subst hnil
    exact ⟨[], by simp [parse_nil_stable], by simp [parse_nil_stable]⟩
  · have h1 := parse_arguments_eq cl ts hpos
    have h2 := parse_arguments_eq ((cl.parse ts).1) ts hpos
    have hsim0 : List.Forall₂ SlotSim cl.arguments (cl.parse ts).1.arguments := by
      rw [h1]
      exact scan_tags_pres ts (ts.length + 1) cl.arguments 1
    have hsim := (scan_tags_sim ts (ts.length + 1) 1 hsim0).2
    rw [← h1, ← h2] at hsim
    exact hsim.delta_getD i hi

theorem C9_multi_value_lists_accumulate_witness :
    0 < C2cli.arguments.length ∧
    ∃ d,
      (((C2cli.parse C2tokens).1.arguments.getD 0 default).storage.multiOf =
        ((C2cli.arguments.getD 0 default).storage.multiOf) ++ d) ∧
      ((((C2cli.parse C2tokens).1.parse C2tokens).1.arguments.getD 0
          default).storage.multiOf =
        (((C2cli.parse C2tokens).1.arguments.getD 0 default).storage.multiOf) ++ d) :=
  ⟨by decide, C9_multi_value_lists_accumulate C2cli C2tokens 0 (by decide)⟩

/-- C10: with no `--` separator, positional scanning restarts at token
index 1, so the already-consumed flag token `-f` is re-offered to the
positional int slot, whose unconditional decode throws
`could not parse from '-f'`; the positional slot never receives `2`
(its value stays `none`), although the flag itself was set. -/
theorem C10_no_separator_reoffers_flag_token :
    (C10cli.parse ["prog", "-f", "2"]).2 = some (PxError.decodeError "-f") ∧
    (C10cli.parse ["prog", "-f", "2"]).1.positionalArguments.map (·.value) = [none] ∧
    (C10cli.parse ["prog", "-f", "2"]).1.arguments.map (·.storage) =
      [Storage.flag true] := by
  decide

end Px
